import Mathlib

/-!
Verification of the Cinema Seat Reservation client (src/ui.py) against its
specification.  The development shallowly embeds the two core components:

* `call_logic` (src/ui.py lines 29-120): candidate resolution and the
  external-process invocation engine.  The operating system is modelled as an
  oracle `run : Cmd → Mode → LaunchOutcome` giving, for every concrete command
  vector and delivery mode, the outcome of launching it, and JSON parsing as
  an oracle `parse : String → Option J`.
* the `CinemaUI` controller (toggle_select, refresh_layout, on_reserve,
  on_delete): the widget state is reduced to the four fields the logic reads
  and writes (rows, cols, selected, reserved_set); message boxes and the
  request payloads become an explicit event list.
-/

/-- Lowercasing a string character by character; models Python `str.lower`
for the ASCII strings (paths, extensions) handled by the program. -/
def lowerStr (s : String) : String := ⟨s.data.map Char.toLower⟩

/-- Suffix test on strings; models Python `str.endswith`. -/
def endsWithStr (s suff : String) : Bool := suff.data.isSuffixOf s.data

/-- Whitespace removal at both ends of a string; models Python `str.strip()`. -/
def stripStr (s : String) : String :=
  ⟨((s.data.dropWhile Char.isWhitespace).reverse.dropWhile Char.isWhitespace).reverse⟩

/-- A command vector: a program plus its argument prefix. -/
abbrev Cmd := List String

/-- What `call_logic` observes about its path argument through `pathlib`:
the raw string `str(p)`, whether the path exists on disk (`p.exists()`), and
its extension (`p.suffix`).  The filesystem facts are inputs to the model. -/
structure PathInfo where
  s : String
  existsOnDisk : Bool
  suffix : String
deriving DecidableEq

/-- The well-known absolute dotnet location hard-coded in `call_logic`. -/
def dotnetLocation : String := "C:\\Program Files\\dotnet\\dotnet.exe"

/-- Candidate-list construction of `call_logic` (src/ui.py lines 38-56):
dotnet launcher forms when the path indicates a managed dll, the bare path
when an existing exe, and last-resort guesses when nothing else matched. -/
def resolve_candidates (p : PathInfo) : List Cmd :=
  let c0 : List Cmd := []
  let c1 := if endsWithStr (lowerStr p.s) ".dll" || (p.existsOnDisk && lowerStr p.suffix == ".dll")
    then c0 ++ [["dotnet", p.s], [dotnetLocation, p.s]] else c0
  let c2 := if p.existsOnDisk && lowerStr p.suffix == ".exe" then c1 ++ [[p.s]] else c1
  if c2.isEmpty then
    if endsWithStr (lowerStr p.s) ".dll" then c2 ++ [["dotnet", p.s], [dotnetLocation, p.s]]
    else c2 ++ [[p.s], ["dotnet", p.s]]
  else c2

/-- Concrete path input used to exercise the resolver theorem. -/
def pathDllSample : PathInfo := ⟨"CinemaLogic.DLL", false, ".DLL"⟩

/-- Delivery mode of one invocation attempt: JSON on standard input, or JSON
appended as one extra command-line argument. -/
inductive Mode where
  | viaStdin
  | viaArg
deriving DecidableEq

/-- The tag `call_logic` puts in its diagnostic strings for each mode. -/
def modeName : Mode → String
  | .viaStdin => "stdin"
  | .viaArg => "arg"

/-- Space-joined rendering of a command, as in Python `' '.join(cmd)`. -/
def joinCmd (cmd : Cmd) : String := String.intercalate " " cmd

/-- Outcome of launching one concrete command, as the operating system decides
it: normal completion with captured stdout/stderr text, `FileNotFoundError`,
`subprocess.TimeoutExpired`, or any other start-up exception. -/
inductive LaunchOutcome where
  | completed (stdout stderr : String)
  | notFound (msg : String)
  | timedOut
  | failedStart (msg : String)
deriving DecidableEq

/-- The two exceptions `call_logic` can raise: a JSON parse failure on
non-empty stdout (RuntimeError carrying the command, mode, raw stdout and
stderr), or exhaustion of every candidate (RuntimeError carrying the
accumulated diagnostic lines in order). -/
inductive CallErr where
  | malformed (cmd : Cmd) (mode : Mode) (stdout stderr : String)
  | exhausted (diags : List String)
deriving DecidableEq

/-- Decidable equality for `Except`, so that concrete engine runs can be
checked by evaluation. -/
instance {ε α : Type} [DecidableEq ε] [DecidableEq α] : DecidableEq (Except ε α) := fun a b =>
  match a, b with
  | .error x, .error y =>
      if h : x = y then .isTrue (congrArg Except.error h)
      else .isFalse (fun he => h (Except.error.inj he))
  | .ok x, .ok y =>
      if h : x = y then .isTrue (congrArg Except.ok h)
      else .isFalse (fun he => h (Except.ok.inj he))
  | .error _, .ok _ => .isFalse (fun he => Except.noConfusion he)
  | .ok _, .error _ => .isFalse (fun he => Except.noConfusion he)

/-- Result of processing one attempt: either continue to the next mode or
candidate carrying the updated diagnostics list, or finish the whole call. -/
inductive AttemptStep (J : Type) where
  | cont (errs : List String)
  | done (r : Except CallErr J)
deriving DecidableEq

/-- One attempt of `call_logic` (the per-mode body at src/ui.py lines 63-88
and 90-116): record launch failures as diagnostics, record non-empty stderr
as a diagnostic, then decide on stdout alone — non-empty stdout is parsed
(success returns, parse failure raises), empty stdout continues. -/
def runAttempt (parse : String → Option J) (cmdFull : Cmd) (mode : Mode)
    (oc : LaunchOutcome) (errs : List String) : AttemptStep J :=
  let launched : Option (String × String) × List String :=
    match oc with
    | .completed out err => (some (out, err), errs)
    | .notFound m =>
        (none, errs ++ ["Command not found: " ++ joinCmd cmdFull ++ " -> " ++ m])
    | .timedOut =>
        (none, errs ++ ["Timeout when running: " ++ joinCmd cmdFull ++ " (" ++ modeName mode ++ ")"])
    | .failedStart m =>
        (none, errs ++ ["Failed to start " ++ joinCmd cmdFull ++ " (" ++ modeName mode ++ "): " ++ m])
  match launched with
  | (none, errs1) => .cont errs1
  | (some (out, err), errs1) =>
    let errs2 := if stripStr err ≠ "" then
        errs1 ++ ["Command: " ++ joinCmd cmdFull ++ " (" ++ modeName mode ++ ") produced stderr: " ++ stripStr err]
      else errs1
    if stripStr out ≠ "" then
      match parse (stripStr out) with
      | some j => .done (.ok j)
      | none => .done (.error (.malformed cmdFull mode out err))
    else .cont errs2

/-- Result of a whole `call_logic` run together with the ordered trace of the
(command, mode) attempts actually launched. -/
structure EngineRun (J : Type) where
  result : Except CallErr J
  attempts : List (Cmd × Mode)
deriving DecidableEq

/-- The candidate loop of `call_logic` (src/ui.py lines 62-120): for each
candidate in order, try stdin delivery then argument delivery (the argument
form appends the JSON payload to the command); stop as soon as an attempt
finishes, otherwise fall through to the aggregated exhaustion error. -/
def callLoop (run : Cmd → Mode → LaunchOutcome) (parse : String → Option J)
    (payloadJson : String) :
    List Cmd → List String → List (Cmd × Mode) → EngineRun J
  | [], errs, tr => ⟨.error (.exhausted errs), tr⟩
  | cmd :: rest, errs, tr =>
    match runAttempt parse cmd .viaStdin (run cmd .viaStdin) errs with
    | .done r => ⟨r, tr ++ [(cmd, .viaStdin)]⟩
    | .cont errs1 =>
      let cmdArg := cmd ++ [payloadJson]
      match runAttempt parse cmdArg .viaArg (run cmdArg .viaArg) errs1 with
      | .done r => ⟨r, tr ++ [(cmd, .viaStdin), (cmdArg, .viaArg)]⟩
      | .cont errs2 =>
          callLoop run parse payloadJson rest errs2 (tr ++ [(cmd, .viaStdin), (cmdArg, .viaArg)])

/-- Invocation engine on an explicit candidate list, starting from empty
diagnostics and an empty attempt trace. -/
def callInvoke (run : Cmd → Mode → LaunchOutcome) (parse : String → Option J)
    (payloadJson : String) (cands : List Cmd) : EngineRun J :=
  callLoop run parse payloadJson cands [] []

/-- Full `call_logic`: resolve the candidates from the path, then run the
invocation engine. -/
def call_logic (run : Cmd → Mode → LaunchOutcome) (parse : String → Option J)
    (p : PathInfo) (payloadJson : String) : EngineRun J :=
  callInvoke run parse payloadJson (resolve_candidates p)

/-- The full attempt schedule the engine follows: for each candidate in
resolver order, first the stdin attempt with the bare command, then the
argument attempt with the payload appended. -/
def schedule (payloadJson : String) (cands : List Cmd) : List (Cmd × Mode) :=
  cands.flatMap (fun c => [(c, Mode.viaStdin), (c ++ [payloadJson], Mode.viaArg)])

/-- Classification of a scheduled attempt independent of the diagnostics
accumulated so far: run it with an empty diagnostics list. -/
def classify (run : Cmd → Mode → LaunchOutcome) (parse : String → Option J)
    (a : Cmd × Mode) : AttemptStep J :=
  runAttempt parse a.1 a.2 (run a.1 a.2) []

/-- Diagnostic lines contributed by one scheduled attempt. -/
def attemptDiags (run : Cmd → Mode → LaunchOutcome) (parse : String → Option J)
    (a : Cmd × Mode) : List String :=
  match classify run parse a with
  | .cont d => d
  | .done _ => []

/-- Reference loop over an explicit attempt schedule; `callLoop` is proved
equal to it below, which lets each claim be settled by induction on the
schedule. -/
def refLoop (run : Cmd → Mode → LaunchOutcome) (parse : String → Option J) :
    List (Cmd × Mode) → List String → List (Cmd × Mode) → EngineRun J
  | [], errs, tr => ⟨.error (.exhausted errs), tr⟩
  | a :: rest, errs, tr =>
    match runAttempt parse a.1 a.2 (run a.1 a.2) errs with
    | .done r => ⟨r, tr ++ [a]⟩
    | .cont errs1 => refLoop run parse rest errs1 (tr ++ [a])

/-- A seat, identified by its (row, column) pair. -/
abbrev Seat := Nat × Nat

/-- Comparison on seats: Python `sorted` orders (row, col) tuples
lexicographically. -/
def seatRel (a b : Seat) : Prop := a.1 < b.1 ∨ (a.1 = b.1 ∧ a.2 ≤ b.2)

instance : DecidableRel seatRel := fun a b => by unfold seatRel; exact inferInstance

instance : IsTrans Seat seatRel :=
  ⟨fun a b c hab hbc => by unfold seatRel at *; omega⟩

instance : IsAntisymm Seat seatRel :=
  ⟨fun a b hab hba => by
    obtain ⟨a1, a2⟩ := a
    obtain ⟨b1, b2⟩ := b
    unfold seatRel at *
    simp only [Prod.mk.injEq]
    omega⟩

instance : IsTotal Seat seatRel := ⟨fun a b => by unfold seatRel; omega⟩

/-- Sorted seat list extracted from a seat set, as Python `sorted(set)`. -/
def sortSeats (s : Finset Seat) : List Seat := s.sort seatRel

/-- Layout object of a get_layout response: optional rows and cols (the
controller applies defaults at the use site, as `dict.get` does) and the
reserved seat list (`layout.get("reserved", [])`, absent meaning empty). -/
structure LayoutData where
  rows : Option Nat
  cols : Option Nat
  reserved : List Seat
deriving DecidableEq

/-- Parsed JSON response as the controller reads it: each field models the
corresponding `resp.get(...)` access, `none` standing for an absent key. -/
structure Resp where
  status : Option String
  message : Option String
  layout : Option LayoutData
  ticketIds : List String
  failed : List Seat
deriving DecidableEq

/-- The controller state: the four CinemaUI fields the selection logic reads
and writes (rows, cols, selected, reserved_set). -/
structure UIState where
  rows : Nat
  cols : Nat
  selected : Finset Seat
  reserved_set : Finset Seat
deriving DecidableEq

/-- The errors refresh_layout can raise: a propagated call_logic failure, a
non-"ok" status ("Logic error"), or a missing layout field ("Invalid layout
response"). -/
inductive UIErr where
  | callFailed (e : CallErr)
  | logicError (msg : Option String)
  | invalidLayout
deriving DecidableEq

/-- toggle_select (src/ui.py lines 192-199): flip membership of the seat in
the selection set; reserved seats are selectable too. -/
def toggle_select (st : UIState) (key : Seat) : UIState :=
  if key ∈ st.selected then { st with selected := st.selected.erase key }
  else { st with selected := insert key st.selected }

/-- clear_selection (src/ui.py lines 208-211). -/
def clear_selection (st : UIState) : UIState := { st with selected := ∅ }

/-- refresh_layout (src/ui.py lines 216-245), applied to the result of the
get_layout call: a call failure propagates; a non-"ok" status or a missing
layout raises before any state field is written, so the error carries the
state as it stood at the raise point; otherwise rows and cols are updated
(keeping the current value when the layout omits them), the reserved set is
replaced wholesale by the layout's seats, and the selection is cleared
unconditionally. -/
def refresh_layout (st : UIState) (callRes : Except CallErr Resp) :
    Except (UIErr × UIState) UIState :=
  match callRes with
  | .error e => .error (.callFailed e, st)
  | .ok resp =>
    if resp.status ≠ some "ok" then .error (.logicError resp.message, st)
    else
      match resp.layout with
      | none => .error (.invalidLayout, st)
      | some lo =>
        .ok { rows := lo.rows.getD st.rows
            , cols := lo.cols.getD st.cols
            , selected := ∅
            , reserved_set := lo.reserved.toFinset }

/-- Observable actions of the controller handlers, in program order: message
boxes shown, requests sent to the authority, and refresh attempts. -/
inductive UIEvent where
  | infoNoSelection
  | infoNoReservedSeats
  | warnNoReservedSelected (ineligible : List Seat)
  | warnSkippedIneligible (ineligible : List Seat)
  | confirmCancelled
  | requestSent (action : String) (seats : List Seat)
  | errCallFailed (e : CallErr)
  | infoReserved (ticketIds : List String)
  | warnReserveFailed (msg : String) (failed : List Seat)
  | infoDeleted (msg : String)
  | errDeleteFailed (msg : String)
  | refreshAttempt
  | warnRefreshFailed (e : UIErr)
deriving DecidableEq

/-- on_reserve (src/ui.py lines 247-284), with the outcomes of the reserve
call and of the induced refresh call supplied as inputs: empty selection
aborts locally; a call_logic exception shows an error box and returns with
no refresh; an "ok" status shows the tickets then refreshes, a refresh
failure being reported as a warning; a non-"ok" status shows the authority
message and failed seats then refreshes, swallowing any refresh failure. -/
def on_reserve (st : UIState) (callResult refreshResult : Except CallErr Resp) :
    UIState × List UIEvent :=
  if st.selected = ∅ then (st, [.infoNoSelection])
  else
    let seats_dto := sortSeats st.selected
    match callResult with
    | .error e => (st, [.requestSent "reserve" seats_dto, .errCallFailed e])
    | .ok resp =>
      if resp.status = some "ok" then
        match refresh_layout st refreshResult with
        | .ok st1 =>
            (st1, [.requestSent "reserve" seats_dto,
              .infoReserved resp.ticketIds, .refreshAttempt])
        | .error (e, st1) =>
            (st1, [.requestSent "reserve" seats_dto,
              .infoReserved resp.ticketIds, .refreshAttempt, .warnRefreshFailed e])
      else
        let msg := resp.message.getD "Reservation failed."
        match refresh_layout st refreshResult with
        | .ok st1 =>
            (st1, [.requestSent "reserve" seats_dto,
              .warnReserveFailed msg resp.failed, .refreshAttempt])
        | .error (_, st1) =>
            (st1, [.requestSent "reserve" seats_dto,
              .warnReserveFailed msg resp.failed, .refreshAttempt])

/-- on_delete (src/ui.py lines 286-351): empty selection aborts locally; the
selection is partitioned into reserved (eligible) and unreserved
(ineligible) seats; with no eligible seat the handler warns or informs and
returns without contacting the authority; otherwise ineligible seats are
reported as skipped, the operator confirms, and only the eligible seats are
sent; a call_logic exception shows an error box and returns with no
refresh; a parsed response (ok or not) is reported and followed by a
refresh, whose failure is warned about on the ok path and swallowed
otherwise. -/
def on_delete (st : UIState) (confirm : Bool)
    (callResult refreshResult : Except CallErr Resp) : UIState × List UIEvent :=
  if st.selected = ∅ then (st, [.infoNoSelection])
  else
    let reserved_to_delete := st.selected.filter (fun k => k ∈ st.reserved_set)
    let unreserved_selected := st.selected.filter (fun k => k ∉ st.reserved_set)
    if reserved_to_delete = ∅ then
      if unreserved_selected ≠ ∅ then
        (st, [.warnNoReservedSelected (sortSeats unreserved_selected)])
      else (st, [.infoNoReservedSeats])
    else
      let pre : List UIEvent :=
        if unreserved_selected ≠ ∅ then
          [.warnSkippedIneligible (sortSeats unreserved_selected)] else []
      let seats_dto := sortSeats reserved_to_delete
      if confirm = false then (st, pre ++ [.confirmCancelled])
      else
        match callResult with
        | .error e =>
            (st, pre ++ [.requestSent "delete_reservations" seats_dto, .errCallFailed e])
        | .ok resp =>
          if resp.status = some "ok" then
            let msg := resp.message.getD "Reservations deleted successfully."
            match refresh_layout st refreshResult with
            | .ok st1 =>
                (st1, pre ++ [.requestSent "delete_reservations" seats_dto,
                  .infoDeleted msg, .refreshAttempt])
            | .error (e, st1) =>
                (st1, pre ++ [.requestSent "delete_reservations" seats_dto,
                  .infoDeleted msg, .refreshAttempt, .warnRefreshFailed e])
          else
            let msg := resp.message.getD "Deletion failed."
            match refresh_layout st refreshResult with
            | .ok st1 =>
                (st1, pre ++ [.requestSent "delete_reservations" seats_dto,
                  .errDeleteFailed msg, .refreshAttempt])
            | .error (_, st1) =>
                (st1, pre ++ [.requestSent "delete_reservations" seats_dto,
                  .errDeleteFailed msg, .refreshAttempt])

/-- Concrete state with one selected, unreserved seat. -/
def stSample : UIState := ⟨6, 10, {(1, 1)}, ∅⟩

/-- Concrete state with seat (1,1) reserved and seats (1,1), (2,2) selected. -/
def stMixed : UIState := ⟨6, 10, {(1, 1), (2, 2)}, {(1, 1)}⟩

/-- Concrete successful get_layout response reserving seat (3,4). -/
def respLayout : Resp := ⟨some "ok", none, some ⟨some 6, some 10, [(3, 4)]⟩, [], []⟩

/-- Concrete ok response for a mutation call. -/
def respOkSample : Resp := ⟨some "ok", some "done", none, ["T1"], []⟩

/-- Sample JSON parser for concrete engine runs: accepts exactly "RESP". -/
def wParse : String → Option Nat := fun s => if s = "RESP" then some 1 else none

/-- Sample oracle: the stdin attempt answers "RESP", the argument attempt is
silent. -/
def wRunOk : Cmd → Mode → LaunchOutcome := fun _ m =>
  match m with
  | .viaStdin => .completed "RESP" ""
  | .viaArg => .completed "" ""

/-- Sample oracle: every attempt answers non-JSON text on stdout. -/
def wRunBad : Cmd → Mode → LaunchOutcome := fun _ _ => .completed "not json" ""

/-- Sample oracle: every launch fails with command-not-found. -/
def wRunMissing : Cmd → Mode → LaunchOutcome := fun _ _ => .notFound "ENOENT"

/-- Sample oracle: stderr chatter together with a good stdout answer. -/
def wRunChatty : Cmd → Mode → LaunchOutcome := fun _ _ => .completed "RESP" "warning noise"

/-- Sample oracle: stderr chatter and empty stdout. -/
def wRunChattySilent : Cmd → Mode → LaunchOutcome := fun _ _ => .completed "" "warning noise"

/-- Processing an attempt on top of already-accumulated diagnostics is the
same as processing it on an empty list and appending: the attempt's fate never
depends on earlier diagnostics. -/
theorem runAttempt_shift (parse : String → Option J) (c : Cmd) (m : Mode)
    (oc : LaunchOutcome) (errs : List String) :
    runAttempt parse c m oc errs =
      match runAttempt parse c m oc ([] : List String) with
      | .cont d => .cont (errs ++ d)
      | .done r => .done r := by
  cases oc with
  | notFound msg => simp [runAttempt]
  | timedOut => simp [runAttempt]
  | failedStart msg => simp [runAttempt]
  | completed out err =>
    by_cases h2 : stripStr out = ""
    · by_cases h1 : stripStr err = "" <;> simp [runAttempt, h1, h2]
    · cases hp : parse (stripStr out) <;>
        by_cases h1 : stripStr err = "" <;> simp [runAttempt, h1, h2, hp]

/-- The hand-transcribed candidate loop equals the reference loop over the
flattened attempt schedule. -/
theorem callLoop_eq_refLoop (run : Cmd → Mode → LaunchOutcome)
    (parse : String → Option J) (payload : String) :
    ∀ (cands : List Cmd) (errs : List String) (tr : List (Cmd × Mode)),
    callLoop run parse payload cands errs tr =
      refLoop run parse (schedule payload cands) errs tr := by
  intro cands
  induction cands with
  | nil => intro errs tr; simp [callLoop, refLoop, schedule]
  | cons c rest ih =>
    intro errs tr
    show callLoop run parse payload (c :: rest) errs tr = _
    rw [schedule, List.flatMap_cons]
    show _ = refLoop run parse ((c, Mode.viaStdin) :: (c ++ [payload], Mode.viaArg) :: schedule payload rest) errs tr
    rw [callLoop, refLoop]
    cases h1 : runAttempt parse c .viaStdin (run c .viaStdin) errs with
    | done r => rfl
    | cont errs1 =>
      cases h2 : runAttempt parse (c ++ [payload]) .viaArg (run (c ++ [payload]) .viaArg) errs1 with
      | done r => simp [refLoop, h2]
      | cont errs2 => simp [refLoop, h2, ih]

/-- The attempts actually launched always form a prefix of the schedule
handed to the reference loop. -/
theorem refLoop_attempts_take (run : Cmd → Mode → LaunchOutcome)
    (parse : String → Option J) :
    ∀ (l : List (Cmd × Mode)) (errs : List String) (tr : List (Cmd × Mode)),
    ∃ n, (refLoop run parse l errs tr).attempts = tr ++ l.take n := by
  intro l
  induction l with
  | nil => intro errs tr; exact ⟨0, by simp [refLoop]⟩
  | cons a rest ih =>
    intro errs tr
    rw [refLoop]
    cases h : runAttempt parse a.1 a.2 (run a.1 a.2) errs with
    | done r => exact ⟨1, by simp⟩
    | cont errs1 =>
      obtain ⟨n, hn⟩ := ih errs1 (tr ++ [a])
      exact ⟨n + 1, by simpa using hn⟩

/-- If every attempt in a block continues and the next attempt finishes, the
reference loop stops exactly there, returning that attempt's result, with the
trace ending at that attempt. -/
theorem refLoop_first_done (run : Cmd → Mode → LaunchOutcome)
    (parse : String → Option J) :
    ∀ (l1 : List (Cmd × Mode)) (a : Cmd × Mode) (l2 : List (Cmd × Mode))
      (errs : List String) (tr : List (Cmd × Mode)) (r : Except CallErr J),
    (∀ b ∈ l1, ∃ d, classify run parse b = .cont d) →
    classify run parse a = .done r →
    refLoop run parse (l1 ++ a :: l2) errs tr = ⟨r, tr ++ l1 ++ [a]⟩ := by
  intro l1
  induction l1 with
  | nil =>
    intro a l2 errs tr r _ hd
    rw [List.nil_append, refLoop, runAttempt_shift]
    unfold classify at hd
    rw [hd]
    simp
  | cons b l1 ih =>
    intro a l2 errs tr r hall hd
    obtain ⟨d, hb⟩ := hall b (by simp)
    rw [List.cons_append, refLoop, runAttempt_shift]
    unfold classify at hb
    rw [hb]
    show refLoop run parse (l1 ++ a :: l2) (errs ++ d) (tr ++ [b]) = _
    rw [ih a l2 (errs ++ d) (tr ++ [b]) r (fun x hx => hall x (by simp [hx])) hd]
    simp

/-- If every attempt in the list continues, the reference loop exhausts it,
aggregating each attempt's diagnostic lines in attempt order and recording
every attempt in the trace. -/
theorem refLoop_all_cont (run : Cmd → Mode → LaunchOutcome)
    (parse : String → Option J) :
    ∀ (l : List (Cmd × Mode)) (errs : List String) (tr : List (Cmd × Mode)),
    (∀ a ∈ l, ∃ d, classify run parse a = .cont d) →
    refLoop run parse l errs tr =
      ⟨.error (.exhausted (errs ++ l.flatMap (attemptDiags run parse))), tr ++ l⟩ := by
  intro l
  induction l with
  | nil => intro errs tr _; simp [refLoop]
  | cons a rest ih =>
    intro errs tr hall
    obtain ⟨d, ha⟩ := hall a (by simp)
    rw [refLoop, runAttempt_shift]
    unfold classify at ha
    rw [ha]
    show refLoop run parse rest (errs ++ d) (tr ++ [a]) = _
    rw [ih (errs ++ d) (tr ++ [a]) (fun x hx => hall x (by simp [hx]))]
    have hd : attemptDiags run parse a = d := by
      unfold attemptDiags classify
      rw [ha]
    simp [hd, List.flatMap_cons]

/-- C5: for every input path the candidate resolver produces a non-empty list
(and, being a total function, raises nothing), and whenever the path string
ends in the managed-library extension ".dll" case-insensitively, the first two
entries are the two runtime-launcher forms, never the bare-path form. -/
theorem c5_resolver_nonempty_dll_launcher_first (p : PathInfo) :
    resolve_candidates p ≠ [] ∧
    (endsWithStr (lowerStr p.s) ".dll" = true →
      ∃ rest, resolve_candidates p =
        ["dotnet", p.s] :: [dotnetLocation, p.s] :: rest) := by
  by_cases hA : endsWithStr (lowerStr p.s) ".dll" = true <;>
  by_cases hB : (p.existsOnDisk && lowerStr p.suffix == ".dll") = true <;>
  by_cases hC : (p.existsOnDisk && lowerStr p.suffix == ".exe") = true <;>
    simp [resolve_candidates, hA, hB, hC]

/-- Witness: the resolver theorem applied to a concrete ".DLL" path. -/
theorem c5_resolver_witness :
    endsWithStr (lowerStr pathDllSample.s) ".dll" = true ∧
    resolve_candidates pathDllSample ≠ [] ∧
    (∃ rest, resolve_candidates pathDllSample =
      ["dotnet", pathDllSample.s] :: [dotnetLocation, pathDllSample.s] :: rest) :=
  ⟨by decide, (c5_resolver_nonempty_dll_launcher_first pathDllSample).1,
    (c5_resolver_nonempty_dll_launcher_first pathDllSample).2 (by decide)⟩

/-- Splitting a list at a valid index. -/
theorem list_split_at_get (l : List (Cmd × Mode)) (i : Nat) (hi : i < l.length) :
    l = l.take i ++ l.get ⟨i, hi⟩ :: l.drop (i + 1) := by
  conv_lhs => rw [← List.take_append_drop i l]
  rw [List.drop_eq_getElem_cons hi]
  rfl

/-- Every element of `l.take i` at an index below `i` is an element of `l`
satisfying the pointwise property collected from `hprev`. -/
theorem take_all_cont (run : Cmd → Mode → LaunchOutcome) (parse : String → Option J)
    (l : List (Cmd × Mode)) (i : Nat) (hi : i < l.length)
    (hprev : ∀ m (hm : m < i), ∃ d, classify run parse (l.get ⟨m, hm.trans hi⟩) = .cont d) :
    ∀ b ∈ l.take i, ∃ d, classify run parse b = .cont d := by
  intro b hb
  obtain ⟨m, hm, hbm⟩ := List.getElem_of_mem hb
  have hmi : m < i := lt_of_lt_of_le hm (by simp)
  have hml : m < l.length := hmi.trans hi
  have : b = l.get ⟨m, hml⟩ := by
    rw [← hbm]
    simp [List.getElem_take]
  rw [this]
  exact hprev m hmi

/-- Joining the first successful attempt back onto the schedule. -/
theorem take_succ_of_get (l : List (Cmd × Mode)) (i : Nat) (hi : i < l.length) :
    l.take i ++ [l.get ⟨i, hi⟩] = l.take (i + 1) := by
  simpa [List.concat_eq_append] using List.take_concat_get l i hi

/-- C1: for every non-empty candidate list and payload, the engine's attempt
trace is an initial segment of the schedule that tries stdin delivery before
argument delivery for each candidate in resolver order; and whenever every
attempt before position i exhausts with empty stdout while attempt i yields
stdout that parses as JSON, the parsed value is returned immediately and the
trace stops at attempt i — no later mode or candidate is attempted. -/
theorem c1_stdin_first_and_short_circuit (run : Cmd → Mode → LaunchOutcome)
    (parse : String → Option J) (payload : String) (cands : List Cmd)
    (hne : cands ≠ []) :
    (∃ n, (callInvoke run parse payload cands).attempts =
      (schedule payload cands).take n) ∧
    (∀ (i : Nat) (hi : i < (schedule payload cands).length) (j : J),
      classify run parse ((schedule payload cands).get ⟨i, hi⟩) = .done (.ok j) →
      (∀ m (hm : m < i),
        ∃ d, classify run parse ((schedule payload cands).get ⟨m, hm.trans hi⟩) = .cont d) →
      (callInvoke run parse payload cands).result = .ok j ∧
      (callInvoke run parse payload cands).attempts =
        (schedule payload cands).take (i + 1)) := by
  constructor
  · rw [callInvoke, callLoop_eq_refLoop]
    simpa using refLoop_attempts_take run parse (schedule payload cands) [] []
  · intro i hi j hdone hprev
    have hfin := refLoop_first_done run parse ((schedule payload cands).take i)
      ((schedule payload cands).get ⟨i, hi⟩) ((schedule payload cands).drop (i + 1))
      [] [] (.ok j) (take_all_cont run parse _ i hi hprev) hdone
    rw [← list_split_at_get (schedule payload cands) i hi] at hfin
    rw [callInvoke, callLoop_eq_refLoop, hfin]
    exact ⟨rfl, by simpa using take_succ_of_get (schedule payload cands) i hi⟩

/-- Witness: a single candidate whose stdin attempt answers parseable JSON;
the engine returns the parsed value after exactly one attempt. -/
theorem c1_witness :
    (callInvoke wRunOk wParse "PAYLOAD" [["prog"]]).result = .ok 1 ∧
    (callInvoke wRunOk wParse "PAYLOAD" [["prog"]]).attempts =
      (schedule "PAYLOAD" [["prog"]]).take 1 :=
  (c1_stdin_first_and_short_circuit wRunOk wParse "PAYLOAD" [["prog"]]
    (by decide)).2 0 (by decide) 1 (by decide)
    (fun m hm => absurd hm (Nat.not_lt_zero m))

/-- C2: if every attempt before position i exhausts with empty stdout while
attempt i completes with non-empty stdout that fails to parse as JSON, the
call terminates immediately with an error carrying the offending command,
the delivery mode, and the raw stdout and stderr; the trace stops at attempt
i, so no further delivery mode or candidate is attempted. -/
theorem c2_parse_failure_immediate (run : Cmd → Mode → LaunchOutcome)
    (parse : String → Option J) (payload : String) (cands : List Cmd)
    (i : Nat) (hi : i < (schedule payload cands).length) (out err : String)
    (hrun : run ((schedule payload cands).get ⟨i, hi⟩).1
      ((schedule payload cands).get ⟨i, hi⟩).2 = .completed out err)
    (hout : stripStr out ≠ "")
    (hparse : parse (stripStr out) = none)
    (hprev : ∀ m (hm : m < i),
      ∃ d, classify run parse ((schedule payload cands).get ⟨m, hm.trans hi⟩) = .cont d) :
    (callInvoke run parse payload cands).result =
      .error (.malformed ((schedule payload cands).get ⟨i, hi⟩).1
        ((schedule payload cands).get ⟨i, hi⟩).2 out err) ∧
    (callInvoke run parse payload cands).attempts =
      (schedule payload cands).take (i + 1) := by
  have hdone : classify run parse ((schedule payload cands).get ⟨i, hi⟩) =
      .done (.error (.malformed ((schedule payload cands).get ⟨i, hi⟩).1
        ((schedule payload cands).get ⟨i, hi⟩).2 out err)) := by
    unfold classify
    rw [hrun]
    simp [runAttempt, hout, hparse]
  have hfin := refLoop_first_done run parse ((schedule payload cands).take i)
    ((schedule payload cands).get ⟨i, hi⟩) ((schedule payload cands).drop (i + 1))
    [] [] _ (take_all_cont run parse _ i hi hprev) hdone
  rw [← list_split_at_get (schedule payload cands) i hi] at hfin
  rw [callInvoke, callLoop_eq_refLoop, hfin]
  exact ⟨rfl, by simpa using take_succ_of_get (schedule payload cands) i hi⟩

/-- Witness: the first attempt answers `not json`; the call fails at once
with the malformed-response error naming that command and raw output. -/
theorem c2_witness :
    (callInvoke wRunBad wParse "PAYLOAD" [["prog"]]).result =
      .error (.malformed ["prog"] Mode.viaStdin "not json" "") ∧
    (callInvoke wRunBad wParse "PAYLOAD" [["prog"]]).attempts =
      (schedule "PAYLOAD" [["prog"]]).take 1 :=
  c2_parse_failure_immediate wRunBad wParse "PAYLOAD" [["prog"]] 0 (by decide)
    "not json" "" (by decide) (by decide) (by decide)
    (fun m hm => absurd hm (Nat.not_lt_zero m))

/-- C3: if every scheduled attempt exhausts with empty (or no) stdout —
launch failures and timeouts included — the call fails with one aggregated
error listing every recorded diagnostic line in attempt order, every attempt
having been tried; and if moreover every launch fails with
command-not-found, the diagnostics contain at least one command-not-found
line naming each candidate. -/
theorem c3_exhaustion_aggregates (run : Cmd → Mode → LaunchOutcome)
    (parse : String → Option J) (payload : String) (cands : List Cmd)
    (hall : ∀ a ∈ schedule payload cands, ∃ d, classify run parse a = .cont d) :
    (callInvoke run parse payload cands).result =
      .error (.exhausted ((schedule payload cands).flatMap (attemptDiags run parse))) ∧
    (callInvoke run parse payload cands).attempts = schedule payload cands ∧
    ((∀ cmd mode, ∃ m, run cmd mode = .notFound m) →
      ∀ c ∈ cands, ∃ m,
        ("Command not found: " ++ joinCmd c ++ " -> " ++ m) ∈
          (schedule payload cands).flatMap (attemptDiags run parse)) := by
  have h := refLoop_all_cont run parse (schedule payload cands) [] [] hall
  refine ⟨?_, ?_, ?_⟩
  · rw [callInvoke, callLoop_eq_refLoop, h]
    simp
  · rw [callInvoke, callLoop_eq_refLoop, h]
    simp
  · intro hnf c hc
    obtain ⟨m, hm⟩ := hnf c Mode.viaStdin
    refine ⟨m, ?_⟩
    rw [List.mem_flatMap]
    refine ⟨(c, Mode.viaStdin), ?_, ?_⟩
    · rw [schedule, List.mem_flatMap]
      exact ⟨c, hc, by simp⟩
    · unfold attemptDiags classify
      rw [hm]
      simp [runAttempt]

/-- Witness: two candidates, no program exists anywhere; the call exhausts
with aggregated diagnostics including a command-not-found line for the first
candidate. -/
theorem c3_witness :
    (callInvoke wRunMissing wParse "PAYLOAD" [["a"], ["b"]]).result =
      .error (.exhausted
        ((schedule "PAYLOAD" [["a"], ["b"]]).flatMap (attemptDiags wRunMissing wParse))) ∧
    (callInvoke wRunMissing wParse "PAYLOAD" [["a"], ["b"]]).attempts =
      schedule "PAYLOAD" [["a"], ["b"]] ∧
    (∃ m, ("Command not found: " ++ joinCmd ["a"] ++ " -> " ++ m) ∈
      (schedule "PAYLOAD" [["a"], ["b"]]).flatMap (attemptDiags wRunMissing wParse)) := by
  have h := c3_exhaustion_aggregates wRunMissing wParse "PAYLOAD" [["a"], ["b"]]
    (fun a _ => ⟨_, rfl⟩)
  exact ⟨h.1, h.2.1, h.2.2 (fun cmd mode => ⟨"ENOENT", rfl⟩) ["a"] (by decide)⟩

/-- C8: when an attempt completes, non-empty stderr is only ever recorded as
a diagnostic and never decides the attempt: with parseable non-empty stdout
the attempt succeeds regardless of stderr, and with empty stdout the attempt
is exhausted silently — its stderr is appended to the diagnostics and the
loop proceeds to the next mode or candidate. -/
theorem c8_stderr_never_decides (run : Cmd → Mode → LaunchOutcome)
    (parse : String → Option J) (cmd : Cmd) (mode : Mode) (out err : String)
    (hrun : run cmd mode = .completed out err) :
    (∀ (j : J), stripStr out ≠ "" → parse (stripStr out) = some j →
      ∀ (rest : List (Cmd × Mode)) (errs : List String) (tr : List (Cmd × Mode)),
        refLoop run parse ((cmd, mode) :: rest) errs tr = ⟨.ok j, tr ++ [(cmd, mode)]⟩) ∧
    (stripStr out = "" →
      ∀ (rest : List (Cmd × Mode)) (errs : List String) (tr : List (Cmd × Mode)),
        refLoop run parse ((cmd, mode) :: rest) errs tr =
          refLoop run parse rest
            (errs ++ (if stripStr err ≠ "" then
              ["Command: " ++ joinCmd cmd ++ " (" ++ modeName mode ++ ") produced stderr: " ++ stripStr err]
             else []))
            (tr ++ [(cmd, mode)])) := by
  constructor
  · intro j hout hparse rest errs tr
    rw [refLoop]
    simp [hrun, runAttempt, hout, hparse]
  · intro hout rest errs tr
    rw [refLoop]
    by_cases h1 : stripStr err = "" <;> simp [hrun, runAttempt, hout, h1]

/-- Witness: stderr chatter with a good stdout answer still succeeds, and
stderr chatter with empty stdout only adds a diagnostic and moves on. -/
theorem c8_witness :
    refLoop wRunChatty wParse [(["prog"], Mode.viaStdin)] [] [] =
      ⟨.ok 1, [(["prog"], Mode.viaStdin)]⟩ ∧
    refLoop wRunChattySilent wParse
        [(["prog"], Mode.viaStdin), (["prog", "PAYLOAD"], Mode.viaArg)] [] [] =
      refLoop wRunChattySilent wParse [(["prog", "PAYLOAD"], Mode.viaArg)]
        ["Command: " ++ joinCmd ["prog"] ++ " (" ++ modeName Mode.viaStdin ++
          ") produced stderr: " ++ stripStr "warning noise"]
        [(["prog"], Mode.viaStdin)] := by
  constructor
  · exact (c8_stderr_never_decides wRunChatty wParse ["prog"] Mode.viaStdin
      "RESP" "warning noise" rfl).1 1 (by decide) rfl [] [] []
  · have h := (c8_stderr_never_decides wRunChattySilent wParse ["prog"] Mode.viaStdin
      "" "warning noise" rfl).2 rfl [(["prog", "PAYLOAD"], Mode.viaArg)] [] []
    simpa using h

/-- C9: toggle_select is an involution on the state: toggling the same seat
twice restores the whole state, the selection set included; a single toggle
flips the seat's selected status and never touches the reserved set or the
grid dimensions, regardless of whether the seat is reserved. -/
theorem c9_toggle_involution (st : UIState) (k : Seat) :
    toggle_select (toggle_select st k) k = st ∧
    ((k ∈ (toggle_select st k).selected) ↔ k ∉ st.selected) ∧
    (toggle_select st k).reserved_set = st.reserved_set ∧
    (toggle_select st k).rows = st.rows ∧
    (toggle_select st k).cols = st.cols := by
  by_cases h : k ∈ st.selected
  · refine ⟨?_, by simp [toggle_select, h], by simp [toggle_select, h],
      by simp [toggle_select, h], by simp [toggle_select, h]⟩
    simp [toggle_select, h, Finset.insert_erase]
  · refine ⟨?_, by simp [toggle_select, h], by simp [toggle_select, h],
      by simp [toggle_select, h], by simp [toggle_select, h]⟩
    simp [toggle_select, h, Finset.erase_insert]

/-- C7: a successful refresh replaces the reserved set wholesale with exactly
the seats of the returned layout and unconditionally empties the selection;
refreshing again with the same call result succeeds and returns the very same
state, so refresh is idempotent. -/
theorem c7_refresh_idempotent (st : UIState) (callRes : Except CallErr Resp)
    (st1 : UIState) (h : refresh_layout st callRes = .ok st1) :
    st1.selected = ∅ ∧
    (∀ resp lo, callRes = .ok resp → resp.layout = some lo →
      st1.reserved_set = lo.reserved.toFinset) ∧
    refresh_layout st1 callRes = .ok st1 := by
  match callRes with
  | .error e => simp [refresh_layout] at h
  | .ok resp =>
    by_cases hs : resp.status = some "ok"
    · match hl : resp.layout with
      | none => simp [refresh_layout, hs, hl] at h
      | some lo =>
        simp [refresh_layout, hs, hl] at h
        subst h
        refine ⟨rfl, ?_, ?_⟩
        · intro resp' lo' he hlo
          cases he
          rw [hl] at hlo
          cases hlo
          rfl
        · cases hr : lo.rows <;> cases hc : lo.cols <;>
            simp [refresh_layout, hs, hl, hr, hc]
    · simp [refresh_layout, hs] at h

/-- Witness: refreshing a concrete state with a concrete ok layout response,
twice. -/
theorem c7_witness :
    refresh_layout stSample (.ok respLayout) =
      .ok ⟨6, 10, ∅, ([((3 : Nat), (4 : Nat))] : List Seat).toFinset⟩ ∧
    (⟨6, 10, ∅, ([((3 : Nat), (4 : Nat))] : List Seat).toFinset⟩ : UIState).selected = ∅ ∧
    refresh_layout (⟨6, 10, ∅, ([((3 : Nat), (4 : Nat))] : List Seat).toFinset⟩ : UIState)
        (.ok respLayout) =
      .ok ⟨6, 10, ∅, ([((3 : Nat), (4 : Nat))] : List Seat).toFinset⟩ := by
  have hh : refresh_layout stSample (.ok respLayout) =
      .ok ⟨6, 10, ∅, ([((3 : Nat), (4 : Nat))] : List Seat).toFinset⟩ := by decide
  exact ⟨hh, (c7_refresh_idempotent stSample (.ok respLayout) _ hh).1,
    (c7_refresh_idempotent stSample (.ok respLayout) _ hh).2.2⟩

/-- C10: refresh is atomic on failure: whenever refresh_layout raises —
call failure, non-"ok" status, or missing layout — the state carried at the
raise point is exactly the pre-call state, so the selection set, the
reserved set and the grid dimensions are all untouched. -/
theorem c10_refresh_atomic_on_failure (st : UIState)
    (callRes : Except CallErr Resp) (e : UIErr) (st' : UIState)
    (h : refresh_layout st callRes = .error (e, st')) :
    st' = st := by
  match callRes with
  | .error e0 =>
    simp [refresh_layout] at h
    exact h.2.symm
  | .ok resp =>
    by_cases hs : resp.status = some "ok"
    · match hl : resp.layout with
      | none => simp [refresh_layout, hs, hl] at h; exact h.2.symm
      | some lo => simp [refresh_layout, hs, hl] at h
    · simp [refresh_layout, hs] at h
      exact h.2.symm

/-- Witness: a failed refresh (call failure) leaves the concrete state as it
was. -/
theorem c10_witness :
    refresh_layout stSample (.error (.exhausted [])) =
      .error (.callFailed (.exhausted []), stSample) ∧ stSample = stSample :=
  ⟨rfl, c10_refresh_atomic_on_failure stSample (.error (.exhausted []))
    (.callFailed (.exhausted [])) stSample rfl⟩

/-- Membership in the sorted seat list is membership in the set. -/
theorem mem_sortSeats (s : Finset Seat) (x : Seat) : x ∈ sortSeats s ↔ x ∈ s := by
  unfold sortSeats
  exact Finset.mem_sort seatRel

/-- Any delete request the handler sends carries exactly the sorted eligible
seats (selected and reserved). -/
theorem on_delete_request_seats (st : UIState) (confirm : Bool)
    (cr rr : Except CallErr Resp) (a : String) (seats : List Seat)
    (hmem : UIEvent.requestSent a seats ∈ (on_delete st confirm cr rr).2) :
    a = "delete_reservations" ∧
    seats = sortSeats (st.selected.filter (fun k => k ∈ st.reserved_set)) := by
  by_cases h0 : st.selected = ∅
  · simp [on_delete, h0] at hmem
  · by_cases h1 : st.selected.filter (fun k => k ∈ st.reserved_set) = ∅
    · by_cases h2 : st.selected.filter (fun k => k ∉ st.reserved_set) = ∅ <;>
        simp [on_delete, h0, h1, h2] at hmem
    · by_cases h2 : st.selected.filter (fun k => k ∉ st.reserved_set) = ∅ <;>
      by_cases hcf : confirm = false
      · simp [on_delete, h0, h1, h2, hcf] at hmem
      · rcases cr with e | resp
        · simp [on_delete, h0, h1, h2, hcf] at hmem
          exact hmem
        · by_cases hst : resp.status = some "ok" <;>
          cases hr : refresh_layout st rr with
          | error p =>
            obtain ⟨e1, st1⟩ := p
            simp [on_delete, h0, h1, h2, hcf, hst, hr] at hmem
            exact hmem
          | ok st1 =>
            simp [on_delete, h0, h1, h2, hcf, hst, hr] at hmem
            exact hmem
      · simp [on_delete, h0, h1, h2, hcf] at hmem
      · rcases cr with e | resp
        · simp [on_delete, h0, h1, h2, hcf] at hmem
          exact hmem
        · by_cases hst : resp.status = some "ok" <;>
          cases hr : refresh_layout st rr with
          | error p =>
            obtain ⟨e1, st1⟩ := p
            simp [on_delete, h0, h1, h2, hcf, hst, hr] at hmem
            exact hmem
          | ok st1 =>
            simp [on_delete, h0, h1, h2, hcf, hst, hr] at hmem
            exact hmem

/-- With eligible seats present and ineligible seats selected, the handler
warns that the ineligible seats will be skipped. -/
theorem on_delete_warns_skipped (st : UIState) (confirm : Bool)
    (cr rr : Except CallErr Resp)
    (h0 : st.selected ≠ ∅)
    (h1 : st.selected.filter (fun k => k ∈ st.reserved_set) ≠ ∅)
    (h2 : st.selected.filter (fun k => k ∉ st.reserved_set) ≠ ∅) :
    UIEvent.warnSkippedIneligible
        (sortSeats (st.selected.filter (fun k => k ∉ st.reserved_set))) ∈
      (on_delete st confirm cr rr).2 := by
  by_cases hcf : confirm = false
  · simp [on_delete, h0, h1, h2, hcf]
  · rcases cr with e | resp
    · simp [on_delete, h0, h1, h2, hcf]
    · by_cases hst : resp.status = some "ok" <;>
      cases hr : refresh_layout st rr with
      | error p =>
        obtain ⟨e1, st1⟩ := p
        simp [on_delete, h0, h1, h2, hcf, hst, hr]
      | ok st1 => simp [on_delete, h0, h1, h2, hcf, hst, hr]

/-- With no eligible seat the delete handler changes nothing and sends no
request. -/
theorem on_delete_aborts_locally (st : UIState) (confirm : Bool)
    (cr rr : Except CallErr Resp)
    (h1 : st.selected.filter (fun k => k ∈ st.reserved_set) = ∅) :
    (on_delete st confirm cr rr).1 = st ∧
    ∀ a seats, UIEvent.requestSent a seats ∉ (on_delete st confirm cr rr).2 := by
  by_cases h0 : st.selected = ∅
  · constructor
    · simp [on_delete, h0]
    · intro a seats
      simp [on_delete, h0]
  · by_cases h2 : st.selected.filter (fun k => k ∉ st.reserved_set) = ∅
    · constructor
      · simp [on_delete, h0, h1, h2]
      · intro a seats
        simp [on_delete, h0, h1, h2]
    · constructor
      · simp [on_delete, h0, h1, h2]
      · intro a seats
        simp [on_delete, h0, h1, h2]

/-- After a parsed response (any status), on_reserve attempts a refresh. -/
theorem on_reserve_refresh_after_response (st : UIState)
    (rr : Except CallErr Resp) (resp : Resp) (h0 : st.selected ≠ ∅) :
    UIEvent.refreshAttempt ∈ (on_reserve st (.ok resp) rr).2 := by
  by_cases hst : resp.status = some "ok" <;>
  cases hr : refresh_layout st rr with
  | error p =>
    obtain ⟨e1, st1⟩ := p
    simp [on_reserve, h0, hst, hr]
  | ok st1 => simp [on_reserve, h0, hst, hr]

/-- On a transport-level failure, on_reserve shows the error (when a call was
made at all) and never attempts a refresh. -/
theorem on_reserve_no_refresh_on_transport_failure (st : UIState)
    (rr : Except CallErr Resp) (e : CallErr) :
    UIEvent.refreshAttempt ∉ (on_reserve st (.error e) rr).2 ∧
    (st.selected ≠ ∅ →
      UIEvent.errCallFailed e ∈ (on_reserve st (.error e) rr).2) := by
  by_cases h0 : st.selected = ∅
  · constructor
    · simp [on_reserve, h0]
    · intro hne; exact absurd h0 hne
  · constructor
    · simp [on_reserve, h0]
    · intro _; simp [on_reserve, h0]

/-- When the ok-status refresh fails, on_reserve still reports the successful
reservation and additionally warns about the refresh failure — the refresh
failure is not fatal. -/
theorem on_reserve_refresh_failure_nonfatal (st : UIState)
    (rr : Except CallErr Resp) (resp : Resp) (e : UIErr) (st2 : UIState)
    (h0 : st.selected ≠ ∅) (hst : resp.status = some "ok")
    (hr : refresh_layout st rr = .error (e, st2)) :
    UIEvent.infoReserved resp.ticketIds ∈ (on_reserve st (.ok resp) rr).2 ∧
    UIEvent.warnRefreshFailed e ∈ (on_reserve st (.ok resp) rr).2 := by
  constructor <;> simp [on_reserve, h0, hst, hr]

/-- After a parsed response (any status), a confirmed delete with eligible
seats attempts a refresh. -/
theorem on_delete_refresh_after_response (st : UIState)
    (rr : Except CallErr Resp) (resp : Resp)
    (h1 : st.selected.filter (fun k => k ∈ st.reserved_set) ≠ ∅) :
    UIEvent.refreshAttempt ∈ (on_delete st true (.ok resp) rr).2 := by
  have h0 : st.selected ≠ ∅ := by
    intro hsel
    apply h1
    rw [hsel]
    simp
  by_cases h2 : st.selected.filter (fun k => k ∉ st.reserved_set) = ∅ <;>
  by_cases hst : resp.status = some "ok" <;>
  cases hr : refresh_layout st rr with
  | error p =>
    obtain ⟨e1, st1⟩ := p
    simp [on_delete, h0, h1, h2, hst, hr]
  | ok st1 => simp [on_delete, h0, h1, h2, hst, hr]

/-- On a transport-level failure, on_delete never attempts a refresh. -/
theorem on_delete_no_refresh_on_transport_failure (st : UIState)
    (confirm : Bool) (rr : Except CallErr Resp) (e : CallErr) :
    UIEvent.refreshAttempt ∉ (on_delete st confirm (.error e) rr).2 := by
  by_cases h0 : st.selected = ∅
  · simp [on_delete, h0]
  · by_cases h1 : st.selected.filter (fun k => k ∈ st.reserved_set) = ∅
    · by_cases h2 : st.selected.filter (fun k => k ∉ st.reserved_set) = ∅ <;>
        simp [on_delete, h0, h1, h2]
    · by_cases h2 : st.selected.filter (fun k => k ∉ st.reserved_set) = ∅ <;>
      by_cases hcf : confirm = false <;>
        simp [on_delete, h0, h1, h2, hcf]

/-- C6: submit-delete partitions the selection into eligible (selected and
reserved) and ineligible (selected, not reserved) seats: any request sent to
the authority carries exactly the sorted eligible seats; whenever ineligible
seats are selected the operator is warned about exactly them; and with no
eligible seat the handler aborts locally — the state is unchanged and no
request is sent. -/
theorem c6_delete_partitions_eligible (st : UIState) (confirm : Bool)
    (callResult refreshResult : Except CallErr Resp) :
    (∀ a seats,
      UIEvent.requestSent a seats ∈ (on_delete st confirm callResult refreshResult).2 →
      a = "delete_reservations" ∧
      seats = sortSeats (st.selected.filter (fun k => k ∈ st.reserved_set)) ∧
      ∀ x, x ∈ seats ↔ (x ∈ st.selected ∧ x ∈ st.reserved_set)) ∧
    (st.selected ≠ ∅ →
      st.selected.filter (fun k => k ∉ st.reserved_set) ≠ ∅ →
      UIEvent.warnSkippedIneligible
          (sortSeats (st.selected.filter (fun k => k ∉ st.reserved_set))) ∈
        (on_delete st confirm callResult refreshResult).2 ∨
      UIEvent.warnNoReservedSelected
          (sortSeats (st.selected.filter (fun k => k ∉ st.reserved_set))) ∈
        (on_delete st confirm callResult refreshResult).2) ∧
    (st.selected.filter (fun k => k ∈ st.reserved_set) = ∅ →
      (on_delete st confirm callResult refreshResult).1 = st ∧
      ∀ a seats,
        UIEvent.requestSent a seats ∉ (on_delete st confirm callResult refreshResult).2) := by
  refine ⟨?_, ?_, fun h1 => on_delete_aborts_locally st confirm callResult refreshResult h1⟩
  · intro a seats hmem
    obtain ⟨ha, hs⟩ := on_delete_request_seats st confirm callResult refreshResult a seats hmem
    refine ⟨ha, hs, ?_⟩
    intro x
    rw [hs, mem_sortSeats, Finset.mem_filter]
  · intro h0 h2
    by_cases h1 : st.selected.filter (fun k => k ∈ st.reserved_set) = ∅
    · right
      simp [on_delete, h0, h1, h2]
    · left
      exact on_delete_warns_skipped st confirm callResult refreshResult h0 h1 h2

/-- Witness: a mixed concrete selection warns about the unreserved seat, and
a selection with no reserved seat aborts locally without any request. -/
theorem c6_witness :
    (UIEvent.warnSkippedIneligible
        (sortSeats (stMixed.selected.filter (fun k => k ∉ stMixed.reserved_set))) ∈
      (on_delete stMixed true (.ok respOkSample) (.ok respLayout)).2 ∨
     UIEvent.warnNoReservedSelected
        (sortSeats (stMixed.selected.filter (fun k => k ∉ stMixed.reserved_set))) ∈
      (on_delete stMixed true (.ok respOkSample) (.ok respLayout)).2) ∧
    ((on_delete stSample true (.ok respOkSample) (.ok respLayout)).1 = stSample ∧
      ∀ a seats, UIEvent.requestSent a seats ∉
        (on_delete stSample true (.ok respOkSample) (.ok respLayout)).2) := by
  constructor
  · exact (c6_delete_partitions_eligible stMixed true (.ok respOkSample)
      (.ok respLayout)).2.1 (by decide) (by decide)
  · exact (c6_delete_partitions_eligible stSample true (.ok respOkSample)
      (.ok respLayout)).2.2 (by decide)

/-- C4 (amended): after every submit-reserve or submit-delete attempt that
received a parsed response from the authority — ok or non-ok status — the
controller triggers a best-effort refresh, and a failure of that refresh is
never fatal (on the ok path it is reported as a warning next to the success
report); but when the call itself fails at the transport level (candidates
exhausted or malformed response) the controller reports the error and
returns without attempting a refresh. -/
theorem c4_amended_refresh_policy (st : UIState) (confirm : Bool)
    (cr rr : Except CallErr Resp) :
    (∀ resp, cr = .ok resp → st.selected ≠ ∅ →
      UIEvent.refreshAttempt ∈ (on_reserve st cr rr).2) ∧
    (∀ resp, cr = .ok resp →
      st.selected.filter (fun k => k ∈ st.reserved_set) ≠ ∅ →
      UIEvent.refreshAttempt ∈ (on_delete st true cr rr).2) ∧
    (∀ resp e st2, cr = .ok resp → st.selected ≠ ∅ → resp.status = some "ok" →
      refresh_layout st rr = .error (e, st2) →
      UIEvent.infoReserved resp.ticketIds ∈ (on_reserve st cr rr).2 ∧
      UIEvent.warnRefreshFailed e ∈ (on_reserve st cr rr).2) ∧
    (∀ e, cr = .error e →
      UIEvent.refreshAttempt ∉ (on_reserve st cr rr).2 ∧
      UIEvent.refreshAttempt ∉ (on_delete st confirm cr rr).2 ∧
      (st.selected ≠ ∅ → UIEvent.errCallFailed e ∈ (on_reserve st cr rr).2)) := by
  refine ⟨?_, ?_, ?_, ?_⟩
  · intro resp hcr h0
    subst hcr
    exact on_reserve_refresh_after_response st rr resp h0
  · intro resp hcr h1
    subst hcr
    exact on_delete_refresh_after_response st rr resp h1
  · intro resp e st2 hcr h0 hst hr
    subst hcr
    exact on_reserve_refresh_failure_nonfatal st rr resp e st2 h0 hst hr
  · intro e hcr
    subst hcr
    exact ⟨(on_reserve_no_refresh_on_transport_failure st rr e).1,
      on_delete_no_refresh_on_transport_failure st confirm rr e,
      (on_reserve_no_refresh_on_transport_failure st rr e).2⟩

/-- Counterexample to C4 as stated: a reserve attempt that contacted the
authority and failed at the transport level (candidates exhausted) triggers
no refresh at all. -/
theorem c4_counterexample :
    (∃ seats, UIEvent.requestSent "reserve" seats ∈
      (on_reserve stSample (.error (.exhausted [])) (.ok respLayout)).2) ∧
    UIEvent.refreshAttempt ∉
      (on_reserve stSample (.error (.exhausted [])) (.ok respLayout)).2 := by
  have h0 : stSample.selected ≠ ∅ := by decide
  constructor
  · exact ⟨sortSeats stSample.selected, by simp [on_reserve, h0]⟩
  · simp [on_reserve, h0]

/-- Witness: a parsed ok response triggers a refresh; a transport failure
does not. -/
theorem c4_witness :
    UIEvent.refreshAttempt ∈
      (on_reserve stSample (.ok respOkSample) (.ok respLayout)).2 ∧
    UIEvent.refreshAttempt ∉
      (on_reserve stSample (.error (.exhausted [])) (.ok respLayout)).2 := by
  constructor
  · exact (c4_amended_refresh_policy stSample true (.ok respOkSample)
      (.ok respLayout)).1 respOkSample rfl (by decide)
  · exact ((c4_amended_refresh_policy stSample true (.error (.exhausted []))
      (.ok respLayout)).2.2.2 (.exhausted []) rfl).1
